import Mathlib

/-!
# Verification of the DPM SQL database codec (arelle/plugin/xbrlDB/XbrlDpmSqlDB.py)

A shallow embedding of the fact/dimension codec of `XbrlDpmSqlDB.py`.
Python strings are modelled as lists of unicode characters (`PyStr`);
Python `Decimal` values as exact scaled integers `m × 10^(-scale)`;
database tables as lists of typed rows; exceptions as `Except`.
-/

set_option maxRecDepth 10000

namespace DpmDB

/-- Python strings modelled as lists of unicode characters. -/
abbrev PyStr := List Char

/-- Decidable equality of `Except` values (used to evaluate the embedded
operations on concrete inputs). -/
instance {ε α : Type} [DecidableEq ε] [DecidableEq α] :
    DecidableEq (Except ε α) := fun a b =>
  match a, b with
  | .error e1, .error e2 =>
    if h : e1 = e2 then isTrue (by rw [h])
    else isFalse (by intro hh; cases hh; exact h rfl)
  | .error _, .ok _ => isFalse (by intro hh; cases hh)
  | .ok _, .error _ => isFalse (by intro hh; cases hh)
  | .ok a1, .ok a2 =>
    if h : a1 = a2 then isTrue (by rw [h])
    else isFalse (by intro hh; cases hh; exact h rfl)

/-- `sep.join(parts)` for the one-character separator `c` (Python `str.join`). -/
def joinSep (c : Char) : List PyStr → PyStr
  | [] => []
  | [t] => t
  | t :: ts => t ++ c :: joinSep c ts

/-- Python `s.partition(c)` for a one-character separator: split at the first
occurrence, returning `(before, sepFound, after)`; when the separator is absent
Python returns `(s, '', '')`, modelled as `(s, false, "")`. -/
def pyPartition (c : Char) : PyStr → PyStr × Bool × PyStr
  | [] => ([], false, [])
  | a :: s =>
    if a = c then ([], true, s)
    else
      let r := pyPartition c s
      (a :: r.1, r.2.1, r.2.2)

/-- Python `s.split(c)` for a one-character separator: at least one piece is
always produced; `"".split(c) == [""]`. -/
def pySplit (c : Char) : PyStr → List PyStr
  | [] => [[]]
  | a :: s =>
    match pySplit c s with
    | [] => [[]]
    | p :: ps => if a = c then [] :: p :: ps else (a :: p) :: ps

/-- Python `s.strip()` (whitespace characters as in `Char.isWhitespace`). -/
def pyStrip (s : PyStr) : PyStr :=
  ((s.dropWhile Char.isWhitespace).reverse.dropWhile Char.isWhitespace).reverse

/-- Lexicographic `s1 <= s2` on code points, as Python string comparison
(used by Python `sorted`). -/
def pyStrLe : PyStr → PyStr → Bool
  | [], _ => true
  | _ :: _, [] => false
  | a :: s, b :: t =>
    if a.toNat < b.toNat then true
    else if b.toNat < a.toNat then false
    else pyStrLe s t

/-- The propositional form of `pyStrLe`, the order used for `sorted`. -/
def strLe (a b : PyStr) : Prop := pyStrLe a b = true

instance : DecidableRel strLe := fun a b =>
  inferInstanceAs (Decidable (pyStrLe a b = true))

/-- Python `sorted` on strings. -/
def pySorted (l : List PyStr) : List PyStr := List.insertionSort strLe l

/-! ## Data model of the source document (the document-model collaborator) -/

/-- One dimension binding of a context (`cntx.qnameDims.values()` element):
its dimension qname, whether it is explicit, the explicit member qname, and
the serialized typed member (`xmlstring(dim.typedMember, stripXmlns=True)`). -/
structure Dim where
  dimensionQname : PyStr
  isExplicit : Bool
  memberQname : PyStr
  typedMemberXml : PyStr
deriving DecidableEq, Repr

/-- `dim.isTyped` of the document model. -/
def Dim.isTyped (d : Dim) : Bool := !d.isExplicit

/-- A context of the instance document. `endDateOrdinal` is the day ordinal of
`cntx.endDatetime.date()`. -/
structure Cntx where
  id : PyStr
  entityIdentifier : PyStr
  endDateOrdinal : Int
  isInstantPeriod : Bool
  qnameDims : List Dim
deriving DecidableEq, Repr

/-! ## KeyCodec: dimKey / met / metDimKey (lines 189–206) -/

/-- The member representation inside a `dimKey` token (line 191–193):
the member qname for an explicit dimension, the stripped-xmlns XML of the
typed member when `typedDim` is requested, else the literal `*`. -/
def dimMemberRep (typedDim : Bool) (d : Dim) : PyStr :=
  if d.isExplicit then d.memberQname
  else if typedDim then d.typedMemberXml
  else ['*']

/-- One `"{dimensionQname}({member})"` token of `dimKey` (line 190). -/
def dimToken (typedDim : Bool) (d : Dim) : PyStr :=
  d.dimensionQname ++ '(' :: (dimMemberRep typedDim d ++ [')'])

/-- `dimKey(cntx, typedDim)` (lines 189–194): the sorted dimension tokens
joined with `'|'`. -/
def dimKey (typedDim : Bool) (cntx : Cntx) : PyStr :=
  joinSep '|' (pySorted (cntx.qnameDims.map (dimToken typedDim)))

/-- `concept.baseXbrliType`-style concept information used by classification. -/
structure Concept where
  isNumeric : Bool
  baseXbrliType : PyStr
deriving DecidableEq, Repr

/-- Python values that can land in the typed value columns. `decV m e`
models `Decimal` `m × 10^(-e)`; `decNaN` models `Decimal('NaN')`;
`dtV` a validated datetime from the document model. -/
inductive PyVal
  | decV (m : Int) (scale : Nat)
  | decNaN
  | boolV (b : Bool)
  | strV (s : PyStr)
  | dtV (s : PyStr)
deriving DecidableEq, Repr

/-- A fact of the instance document (the fields of `f` read by
`insertDataPoints`). `xValue` is the document model's validated value,
`none` for nil facts. -/
structure Fact where
  qnameFull : PyStr
  qnameLocal : PyStr
  concept : Option Concept
  xValue : Option PyVal
  value : PyStr
  isNil : Bool
  decimals : Option PyStr
  unitID : Option PyStr
  contextID : Option PyStr
deriving DecidableEq, Repr

/-- The loaded instance document (`modelXbrl`): its uri (used as the stored
`FileName`), the uri of the first in-DTS href reference (drives the `Module`
lookup, lines 130–143), its contexts and its facts. -/
structure ModelXbrlDoc where
  uri : PyStr
  moduleUri : Option PyStr
  contexts : List Cntx
  factsInInstance : List Fact
deriving DecidableEq, Repr

/-- `f.context`: the context of a fact, resolved by its context id. -/
def factContext (m : ModelXbrlDoc) (f : Fact) : Option Cntx :=
  f.contextID.bind (fun cid => m.contexts.find? (fun c => c.id == cid))

/-- `(cntx.id, dimKey(cntx))` for every context of the list with a non-empty
dimension map. -/
def contextSortedDimsOf (cs : List Cntx) : List (PyStr × PyStr) :=
  (cs.filter (fun c => !c.qnameDims.isEmpty)).map
    (fun c => (c.id, dimKey false c))

/-- `contextSortedDims` (lines 195–197): the dictionary from context id to
dimension key, over the document's contexts. -/
def contextSortedDims (m : ModelXbrlDoc) : List (PyStr × PyStr) :=
  contextSortedDimsOf m.contexts

/-- `met(fact)` (lines 199–200): `"MET({fact.qname})"`. -/
def met (f : Fact) : PyStr := "MET(".data ++ f.qnameFull ++ [')']

/-- `metDimKey(fact)` (lines 202–206): `met(fact)`, extended with
`'|' + contextSortedDims[fact.contextID]` when that dict has the fact's
context id. -/
def metDimKey (m : ModelXbrlDoc) (f : Fact) : PyStr :=
  let key := met f
  match f.contextID.bind (fun cid => (contextSortedDims m).lookup cid) with
  | some sortedDims => key ++ '|' :: sortedDims
  | none => key

/-! ## KeyCodec: decoding (loadXbrlFromDB lines 399–425) -/

/-- The XPDBException error codes raised anywhere in `XbrlDpmSqlDB.py`:
`sqlDB:MissingTables` (line 89), `xpgDB:MissingXbrlDocument` (line 101) and
`sqlDB:MissingDTS` (line 353). No other error code exists in the module. -/
inductive XPDBErr
  | missingTables
  | missingXbrlDocument
  | missingDTS
deriving DecidableEq, Repr

/-- Lines 404–405: `metric, sep, dims = dpKey.partition('|')` and the metric
qname text `metric.partition('(')[2][:-1]`: everything after the first `'('`
with the final character removed.  Returns `(metricQnameText, dims)`. -/
def decodeDataPointKey (dpKey : PyStr) : PyStr × PyStr :=
  let m := pyPartition '|' dpKey
  let inner := (pyPartition '(' m.1).2.2
  (inner.dropLast, m.2.2)

/-- The decode step as executed during reconstruction: it raises no exception
(the only `raise` sites of `loadXbrlFromDB` are the `MissingDTS` lookup check,
before any key is decoded). -/
def decodeDataPointKeyE (dpKey : PyStr) : Except XPDBErr (PyStr × PyStr) :=
  .ok (decodeDataPointKey dpKey)

/-- Lines 418–419: `for dim in dims.split('|'): dQn, sep, dVal =
dim[:-1].partition('(')` — the decoded (dimension qname, member text) pairs. -/
def decodeDimTokens (dims : PyStr) : List (PyStr × PyStr) :=
  (pySplit '|' dims).map (fun dim =>
    let p := pyPartition '(' dim.dropLast
    (p.1, p.2.2))

/-! ## ValueClassifier (lines 226–265) -/

/-- Python exceptions that can escape the classification code. -/
inductive PyErr
  | nameError
  | indexError
deriving DecidableEq, Repr

/-- The three type flags set by lines 227–264 (`isText` is derived). -/
structure Flags where
  isNumeric : Bool
  isBool : Bool
  isDateTime : Bool
deriving DecidableEq, Repr

/-- `isText = not (isNumeric or isBool or isDateTime)` (line 265). -/
def Flags.isText (fl : Flags) : Bool := !(fl.isNumeric || fl.isBool || fl.isDateTime)

/-- The value of a decimal digit, when the character is one. -/
def digitVal (c : Char) : Option Nat :=
  if c.isDigit then some (c.toNat - '0'.toNat) else none

/-- Reads a (possibly empty) digit string as a natural number; `none` if any
character is not a digit. -/
def natOfDigits (s : PyStr) : Option Nat :=
  s.foldl (fun acc c => acc.bind (fun n => (digitVal c).map (fun d => n * 10 + d)))
    (some 0)

/-- Python `Decimal(s)` on a plain sign/digits/point literal, as an exact
scaled integer `(mantissa, scale)` with value `mantissa × 10^(-scale)`;
`none` models `InvalidOperation` (exponent forms are out of the claims'
scope). -/
def parsePyDecimal (s : PyStr) : Option (Int × Nat) :=
  let signed : Bool × PyStr :=
    match s with
    | '-' :: r => (true, r)
    | '+' :: r => (false, r)
    | r => (false, r)
  let withSign (n : Nat) : Int := if signed.1 then -(n : Int) else (n : Int)
  match pySplit '.' signed.2 with
  | [ip] =>
    if ip.isEmpty then none
    else (natOfDigits ip).map (fun n => (withSign n, 0))
  | [ip, fp] =>
    if ip.isEmpty && fp.isEmpty then none
    else
      match natOfDigits ip, natOfDigits fp with
      | some a, some b => some (withSign (a * 10 ^ fp.length + b), fp.length)
      | _, _ => none
  | _ => none

/-- Value classification of one fact (lines 226–265), producing the type
flags and the converted `xValue`.

The branch for an unresolved concept whose local name starts with `'d'`
executes `dateTime(xValue, type=DATEUNION, castException=ValueError)` inside
`try/except ValueError`. `DATEUNION` is not bound anywhere in the module
(line 42 imports only `qname` and `dateTime` from `arelle.ModelValue`), so
evaluating the call's arguments raises `NameError`, which `except ValueError`
does not catch: the branch always raises. Reading `f.qname.localName[0]` on
an empty local name would raise `IndexError`. -/
def classifyFact (f : Fact) : Except PyErr (Flags × Option PyVal) :=
  match f.concept with
  | some concept =>
    let flags : Flags :=
      if concept.isNumeric then ⟨true, false, false⟩
      else if concept.baseXbrliType = "booleanItemType".data then ⟨false, true, false⟩
      else if concept.baseXbrliType = "dateTimeItemType".data then ⟨false, false, true⟩
      else ⟨false, false, false⟩
    .ok (flags, f.xValue)
  | none =>
    if f.isNil then .ok (⟨false, false, false⟩, none)
    else
      match f.qnameLocal.head? with
      | none => .error .indexError
      | some c =>
        if c = 'm' then
          let xv : PyVal :=
            match parsePyDecimal f.value with
            | some (mant, sc) => .decV mant sc
            | none => .decNaN
          .ok (⟨true, false, false⟩, some xv)
        else if c = 'd' then
          .error .nameError
        else if c = 'b' then
          let v := pyStrip f.value
          let xv : PyVal :=
            if v = "true".data ∨ v = "1".data then .boolV true
            else if v = "false".data ∨ v = "0".data then .boolV false
            else .strV v
          .ok (⟨false, true, false⟩, some xv)
        else
          .ok (⟨false, false, false⟩, some (.strV f.value))

/-! ## FactProjector rows (lines 266–331) -/

/-- A row of the `Fact` table (columns of lines 314–319). -/
structure FactRow where
  decimals : Option PyStr
  variableId : Option PyStr
  dataPointKey : PyStr
  instanceId : Int
  entityId : PyStr
  datePeriodEnd : Int
  unit : Option PyStr
  numericValue : Option PyVal
  dateTimeValue : Option PyVal
  boolValue : Option PyVal
  textValue : Option PyVal
deriving DecidableEq, Repr

/-- A row of the `dCloseTableFact` table (columns of lines 320–325). -/
structure CloseTableFactRow where
  instanceId : Int
  metricDimMem : PyStr
  unit : Option PyStr
  decimals : Option PyStr
  numericValue : Option PyVal
  dateTimeValue : Option PyVal
  boolValue : Option PyVal
  textValue : Option PyVal
  instanceIdMetricDimMemHash : Option PyStr
deriving DecidableEq, Repr

/-- A row of the `dProcessingFact` table (columns of lines 326–331). -/
structure ProcessingFactRow where
  instanceId : Int
  metric : PyStr
  contextId : PyStr
  valueTxt : PyStr
  valueDecimal : Option PyStr
  valueDate : Int
  error : Option PyStr
deriving DecidableEq, Repr

/-- A row of the `dProcessingContext` table (columns of lines 208–216). -/
structure ProcessingContextRow where
  instanceId : Int
  contextId : PyStr
  sortedDimensions : PyStr
  notValid : Bool
deriving DecidableEq, Repr

/-- The rows one fact contributes (lines 224–313): a `Fact`-table row and a
`dProcessingFact` row when the fact has a context, plus a `dCloseTableFact`
row when additionally the context has no typed dimension.  A fact with no
context contributes nothing. -/
def processFact (m : ModelXbrlDoc) (instanceId : Int) (f : Fact) :
    Except PyErr (List FactRow × List CloseTableFactRow × List ProcessingFactRow) := do
  let (flags, xValue) ← classifyFact f
  match factContext m f with
  | none => pure ([], [], [])
  | some cntx =>
    let numV := if flags.isNumeric then xValue else none
    let dtV := if flags.isDateTime then xValue else none
    let boolV := if flags.isBool then xValue else none
    let textV := if flags.isText then xValue else none
    let factRow : FactRow :=
      { decimals := f.decimals
        variableId := none
        dataPointKey := metDimKey m f
        instanceId := instanceId
        entityId := cntx.entityIdentifier
        datePeriodEnd := cntx.endDateOrdinal - 1
        unit := f.unitID
        numericValue := numV
        dateTimeValue := dtV
        boolValue := boolV
        textValue := textV }
    let closeRows : List CloseTableFactRow :=
      if cntx.qnameDims.any Dim.isTyped then []
      else
        [{ instanceId := instanceId
           metricDimMem := metDimKey m f
           unit := f.unitID
           decimals := f.decimals
           numericValue := numV
           dateTimeValue := dtV
           boolValue := boolV
           textValue := textV
           instanceIdMetricDimMemHash := none }]
    let procRow : ProcessingFactRow :=
      { instanceId := instanceId
        metric := met f
        contextId := cntx.id
        valueTxt := f.value
        valueDecimal := f.decimals
        valueDate := cntx.endDateOrdinal - 1
        error := none }
    pure ([factRow], closeRows, [procRow])

/-! ## InstanceUpserter and insertDataPoints (lines 125–331) -/

/-- A row of the `Module` table. -/
structure ModuleRow where
  moduleId : Int
  uri : PyStr
deriving DecidableEq, Repr

/-- A row of the `Instance` table (the columns this module reads back). -/
structure InstanceRow where
  instanceId : Int
  moduleId : Option Int
  fileName : PyStr
deriving DecidableEq, Repr

/-- A row of the `dOpenTableSheetsRow` table.  This module never inserts such
rows; it only deletes them by instance id (lines 178–180). -/
structure OpenTableRow where
  instanceId : Int
  payload : PyStr
deriving DecidableEq, Repr

/-- The database state: one list of rows per table touched by the module. -/
structure DBState where
  moduleTable : List ModuleRow
  instanceTable : List InstanceRow
  factTable : List FactRow
  dCloseTableFact : List CloseTableFactRow
  dOpenTableSheetsRow : List OpenTableRow
  dProcessingContext : List ProcessingContextRow
  dProcessingFact : List ProcessingFactRow
deriving DecidableEq, Repr

/-- The empty database. -/
def DBState.empty : DBState := ⟨[], [], [], [], [], [], []⟩

/-- A fresh id: one more than the largest id in use. -/
def freshId (ids : List Int) : Int := ids.foldl max 0 + 1

/-- The `Module` get-or-insert of `insertInstance` (lines 131–143): matched by
`URI`; returns the updated table and the module id. -/
def resolveModule (db : DBState) (uri : PyStr) : DBState × Int :=
  match db.moduleTable.find? (fun r => r.uri == uri) with
  | some r => (db, r.moduleId)
  | none =>
    let newId := freshId (db.moduleTable.map (·.moduleId))
    ({ db with moduleTable := db.moduleTable ++ [⟨newId, uri⟩] }, newId)

/-- The `Instance` get-or-insert of `insertInstance` (lines 148–168): the
match columns are `('ModuleID',)` (line 152), so an instance is "previously
in DB" when a row with the same module id exists; the matched (or new) row's
id and the existence status are recorded. -/
def insertInstance (db : DBState) (m : ModelXbrlDoc) (moduleId : Option Int) :
    DBState × Int × Bool :=
  match db.instanceTable.find? (fun r => r.moduleId == moduleId) with
  | some r => (db, r.instanceId, true)
  | none =>
    let newId := freshId (db.instanceTable.map (·.instanceId))
    ({ db with instanceTable := db.instanceTable ++ [⟨newId, moduleId, m.uri⟩] },
     newId, false)

/-- `insertDataPoints` (lines 170–331).  When the instance was previously in
the database, rows keyed to its instance id are deleted from
`dCloseTableFact`, `dOpenTableSheetsRow`, `dProcessingContext` and
`dProcessingFact` (lines 172–186) — the `Fact` table is not purged.  Then the
processing-context rows and the per-fact rows are appended. -/
def insertDataPoints (db : DBState) (m : ModelXbrlDoc) (instanceId : Int)
    (previouslyInDB : Bool) : Except PyErr DBState := do
  let db :=
    if previouslyInDB then
      { db with
        dCloseTableFact := db.dCloseTableFact.filter (fun r => r.instanceId ≠ instanceId)
        dOpenTableSheetsRow :=
          db.dOpenTableSheetsRow.filter (fun r => r.instanceId ≠ instanceId)
        dProcessingContext :=
          db.dProcessingContext.filter (fun r => r.instanceId ≠ instanceId)
        dProcessingFact :=
          db.dProcessingFact.filter (fun r => r.instanceId ≠ instanceId) }
    else db
  let ctxRows : List ProcessingContextRow :=
    (contextSortedDims m).map (fun p => ⟨instanceId, p.1, p.2, false⟩)
  let db := { db with dProcessingContext := db.dProcessingContext ++ ctxRows }
  let triples ← m.factsInInstance.mapM (processFact m instanceId)
  pure { db with
         factTable := db.factTable ++ triples.flatMap (·.1)
         dCloseTableFact := db.dCloseTableFact ++ triples.flatMap (·.2.1)
         dProcessingFact := db.dProcessingFact ++ triples.flatMap (·.2.2) }

/-- `insertInstance` followed by `insertDataPoints` (lines 112–113): the body
of `insertXbrl` after the pre-flight checks. -/
def insertXbrl (db : DBState) (m : ModelXbrlDoc) : Except PyErr DBState :=
  let resolved : DBState × Option Int :=
    match m.moduleUri with
    | some uri =>
      let r := resolveModule db uri
      (r.1, some r.2)
    | none => (db, none)
  let r2 := insertInstance resolved.1 m resolved.2
  insertDataPoints r2.1 m r2.2.1 r2.2.2

/-- One full insertion as observed through `insertIntoDB` (lines 57–73): on
success the transaction commits; on an exception the connection rolls back,
leaving the database unchanged, and the exception is re-raised. -/
def insertOp (db : DBState) (m : ModelXbrlDoc) : DBState × Option PyErr :=
  match insertXbrl db m with
  | .ok db' => (db', none)
  | .error e => (db, some e)

/-! ## GraphReconstructor value rendering (lines 448–463) -/

/-- The stored `Decimals` column after the float coercion of lines 409–410:
either the `"INF"` sentinel or an integer. -/
inductive DecStored
  | INF
  | intD (i : Int)
deriving DecidableEq, Repr

/-- `len(numVal.partition(".")[2])` (line 456): the number of fractional
digits in the stored numeric literal. -/
def fracCount (numVal : PyStr) : Nat := (pyPartition '.' numVal).2.2.length

/-- `max(min(int(dec), 28), -28)` (line 458). -/
def clampDec (d : Int) : Int := max (min d 28) (-28)

/-- Round `m / q` (with `q > 0`) to the nearest integer, ties to even
(banker's rounding, the `decimal` module default). -/
def roundHalfEven (m : Int) (q : Nat) : Int :=
  let qi : Int := (q : Int)
  let fl := Int.fdiv m qi
  let r := m - fl * qi
  if 2 * r < qi then fl
  else if qi < 2 * r then fl + 1
  else if fl % 2 = 0 then fl else fl + 1

/-- Modelled from the spec: `roundValue` (arelle.ValidateXbrlCalcs, not part
of this repository's sources) rounds the value to `decimals` decimal places
("numeric values are rounded using the stored decimals (read via the external
rounding routine)"); a `None` or `"INF"` decimals leaves the value unchanged.
On the exact scaled representation `mantissa × 10^(-scale)`. -/
def roundValueSpec (mant : Int) (scale : Nat) (dec : Option DecStored) : Int × Nat :=
  match dec with
  | none => (mant, scale)
  | some .INF => (mant, scale)
  | some (.intD d) =>
    if 0 ≤ d then
      let dn := d.toNat
      if scale ≤ dn then (mant, scale)
      else (roundHalfEven mant (10 ^ (scale - dn)), dn)
    else
      let dn := (-d).toNat
      (roundHalfEven mant (10 ^ (scale + dn)) * (10 : Int) ^ dn, 0)

/-- Modelled from the spec: `Locale.format(locale, "%.*f", (places, num))`
(arelle.Locale, not part of this repository's sources) formats the number
with exactly `places` decimal places ("formatted using the document's
locale-aware decimal formatter"); the value is rescaled exactly, rounding
half-even when digits are cut. -/
def formatFixed (mant : Int) (scale : Nat) (places : Nat) : PyStr :=
  let m' : Int :=
    if scale ≤ places then mant * (10 : Int) ^ (places - scale)
    else roundHalfEven mant (10 ^ (scale - places))
  let sign : PyStr := if m' < 0 then ['-'] else []
  let a := m'.natAbs
  let ip := Nat.toDigits 10 (a / 10 ^ places)
  if places = 0 then sign ++ ip
  else
    let fd := Nat.toDigits 10 (a % 10 ^ places)
    sign ++ ip ++ '.' :: (List.replicate (places - fd.length) '0' ++ fd)

/-- Numeric value rendering during reconstruction (lines 453–459):
`num = roundValue(numVal, None, dec)`; when `dec` is `None` or `"INF"` the
displayed decimal places are the fractional digit count of the stored
literal, otherwise `dec` clamped to `[-28, 28]`; then `"%.*f"` formatting.
`none` models the (out-of-scope) case of an unparseable stored literal; a
negative display precision is not exercised by any stored row and is
modelled as zero places. -/
def renderNumeric (numVal : PyStr) (dec : Option DecStored) : Option PyStr :=
  (parsePyDecimal numVal).map (fun p =>
    let r := roundValueSpec p.1 p.2 dec
    let places : Int :=
      match dec with
      | none => (fracCount numVal : Int)
      | some .INF => (fracCount numVal : Int)
      | some (.intD d) => clampDec d
    formatFixed r.1 r.2 places.toNat)

/-- Python `s.lower()` (ASCII case folding suffices here). -/
def pyLower (s : PyStr) : PyStr := s.map Char.toLower

/-- Boolean value rendering during reconstruction (line 463):
`'true' if boolVal.lower() in ('t', 'true', '1') else 'false'`. -/
def renderBool (boolVal : PyStr) : PyStr :=
  if pyLower boolVal = "t".data ∨ pyLower boolVal = "true".data
      ∨ pyLower boolVal = "1".data
  then "true".data else "false".data

/-! ## Recursion blocking (lines 50–73 and 358–365) -/

/-- The `modelXbrl` attributes relevant to `insertIntoDB`'s entry gate:
`blockDpmDBrecursion` is absent (i.e. `getattr(..., False)`) or set. -/
structure ModelXbrl where
  blockDpmDBrecursion : Bool
deriving DecidableEq, Repr

/-- Observable database-connection effects of `insertIntoDB`. -/
inductive DBEffect
  | connect
  | verifyTables
  | insertOps
  | loadOps
  | close
  | closeRollback
deriving DecidableEq, Repr

/-- `insertIntoDB` (lines 50–73): when `blockDpmDBrecursion` is set the
function returns `None` at once (lines 53–54), before the connection is
created; otherwise it connects, verifies tables, runs the load or the
insertion, and closes.  The second component is the trace of connection
effects. -/
def insertIntoDB (m : ModelXbrl) (loadDBsaveToFile : Option PyStr) :
    Option PyStr × List DBEffect :=
  if m.blockDpmDBrecursion then (none, [])
  else
    match loadDBsaveToFile with
    | some f => (some f, [.connect, .verifyTables, .loadOps, .close])
    | none => (none, [.connect, .verifyTables, .insertOps, .close])

/-- The opening of `loadXbrlFromDB` (lines 337–365): resolve the instance row
by file name and the module URI by the instance's module id; fail with
`MissingDTS` when either is falsy; otherwise set `blockDpmDBrecursion` and
build the new instance document via `createModelDocument` — the hook receives
the model with the flag already set.  Returns the hook's result and the
model state. -/
def loadXbrlFromDB {α : Type} (db : DBState) (m : ModelXbrl) (fileName : PyStr)
    (createModelDocument : ModelXbrl → α) : Except XPDBErr (α × ModelXbrl) :=
  let inst := db.instanceTable.find? (fun r => r.fileName == fileName)
  let instanceId : Option Int := inst.map (·.instanceId)
  let moduleId : Option Int := inst.bind (·.moduleId)
  let moduleURI : Option PyStr :=
    moduleId.bind (fun mid =>
      (db.moduleTable.find? (fun r => r.moduleId == mid)).map (·.uri))
  if instanceId.getD 0 = 0 ∨ moduleURI.getD [] = [] then .error .missingDTS
  else
    let m' : ModelXbrl := { m with blockDpmDBrecursion := true }
    .ok (createModelDocument m', m')

/-- Wellformedness of a dimension map for key decoding: dimension qnames are
free of `'('` and `'|'`, member representations free of `'|'`. -/
def DimsWF (c : Cntx) : Prop :=
  ∀ d ∈ c.qnameDims, '(' ∉ d.dimensionQname ∧ '|' ∉ d.dimensionQname ∧
    '|' ∉ dimMemberRep false d

instance (c : Cntx) : Decidable (DimsWF c) := by
  unfold DimsWF; infer_instance

/-- The number of non-null entries among a row's value columns. -/
def countSome (l : List (Option PyVal)) : Nat := (l.filter Option.isSome).length

/-- The four value columns of a `Fact`-table row, in column order. -/
def FactRow.valueCols (r : FactRow) : List (Option PyVal) :=
  [r.numericValue, r.dateTimeValue, r.boolValue, r.textValue]

/-- The four value columns of a `dCloseTableFact` row, in column order. -/
def CloseTableFactRow.valueCols (r : CloseTableFactRow) : List (Option PyVal) :=
  [r.numericValue, r.dateTimeValue, r.boolValue, r.textValue]

/-! ## Concrete instance data used as test inputs -/

/-- The spec's worked example dimension: explicit `eba:CF` with member
`eba:x5`. -/
def exDimCF : Dim := ⟨"eba:CF".data, true, "eba:x5".data, []⟩

/-- A second explicit dimension. -/
def exDimZZ : Dim := ⟨"eba:ZZ".data, true, "eba:m1".data, []⟩

/-- A typed dimension. -/
def exDimTyped : Dim := ⟨"eba:TD".data, false, [], "<t:v>7</t:v>".data⟩

/-- A context with the single explicit dimension `eba:CF(eba:x5)`. -/
def exCntx : Cntx := ⟨"c1".data, "LEI123".data, 100, true, [exDimCF]⟩

/-- A context with one typed dimension. -/
def exCntxTyped : Cntx := ⟨"c2".data, "LEI123".data, 100, true, [exDimTyped]⟩

/-- A context with no dimensions. -/
def exCntxNoDims : Cntx := ⟨"c3".data, "LEI123".data, 100, true, []⟩

/-- Two contexts whose dimension maps are permutations of one another. -/
def exCntxAB : Cntx := ⟨"c4".data, "LEI123".data, 100, true, [exDimCF, exDimZZ]⟩

/-- See `exCntxAB`. -/
def exCntxBA : Cntx := ⟨"c4".data, "LEI123".data, 100, true, [exDimZZ, exDimCF]⟩

/-- The spec's worked example metric fact `eba:mi123` reported in `exCntx`. -/
def exMetricFact : Fact :=
  ⟨"eba:mi123".data, "mi123".data, none, none, "5".data, false, none, none,
    some "c1".data⟩

/-- An unresolved-concept text fact with value "A" in `exCntx`. -/
def exFactA : Fact :=
  ⟨"eba:si1".data, "si1".data, none, none, "A".data, false, none, none,
    some "c1".data⟩

/-- An unresolved-concept text fact with value "B" in `exCntx`. -/
def exFactB : Fact :=
  ⟨"eba:si1".data, "si1".data, none, none, "B".data, false, none, none,
    some "c1".data⟩

/-- A nil fact with no resolvable concept. -/
def exNilFact : Fact :=
  ⟨"eba:si2".data, "si2".data, none, none, [], true, none, none,
    some "c1".data⟩

/-- An unresolved-concept fact whose local name starts with `'b'`, with the
given raw value. -/
def exBoolFact (v : PyStr) : Fact :=
  ⟨"eba:bx1".data, "bx1".data, none, none, v, false, none, none,
    some "c1".data⟩

/-- An unresolved-concept fact whose local name starts with `'d'`. -/
def exDateFact : Fact :=
  ⟨"eba:di1".data, "di1".data, none, none, "2014-01-31".data, false, none,
    none, some "c1".data⟩

/-- A numeric fact reported in the typed-dimension context `exCntxTyped`. -/
def exTypedCtxFact : Fact :=
  ⟨"eba:mi9".data, "mi9".data, none, none, "7".data, false, none, none,
    some "c2".data⟩

/-- A document holding the three example contexts and the example metric
fact. -/
def exModel : ModelXbrlDoc :=
  ⟨"rep.xbrl".data, some "mod.xsd".data, [exCntx, exCntxTyped, exCntxNoDims],
    [exMetricFact]⟩

/-- The first insertion's document for the re-insertion scenario. -/
def exModelA : ModelXbrlDoc :=
  ⟨"rep.xbrl".data, some "mod.xsd".data, [exCntx], [exFactA]⟩

/-- The second insertion's document — same file name (uri), same module,
different fact. -/
def exModelB : ModelXbrlDoc :=
  ⟨"rep.xbrl".data, some "mod.xsd".data, [exCntx], [exFactB]⟩

/-- A document whose only fact is the unresolved `'d'`-hinted fact. -/
def exModelD : ModelXbrlDoc :=
  ⟨"rep.xbrl".data, some "mod.xsd".data, [exCntx], [exDateFact]⟩

/-- A database already holding module and instance rows for `rep.xbrl`. -/
def exDBLoaded : DBState :=
  { DBState.empty with
    moduleTable := [⟨1, "mod.xsd".data⟩]
    instanceTable := [⟨1, some 1, "rep.xbrl".data⟩] }

/-- A fact reported in the dimensionless context `exCntxNoDims`. -/
def exNoDimsFact : Fact :=
  ⟨"eba:mi77".data, "mi77".data, none, none, "3".data, false, none, none,
    some "c3".data⟩

/-! ## Order lemmas for the string comparison used by `sorted` -/

theorem char_toNat_inj {a b : Char} (h : a.toNat = b.toNat) : a = b :=
  Char.ext (UInt32.ext h)

theorem pyStrLe_cons_iff {a b : Char} {s t : PyStr} :
    pyStrLe (a :: s) (b :: t) = true ↔
      a.toNat < b.toNat ∨ (a.toNat = b.toNat ∧ pyStrLe s t = true) := by
  simp only [pyStrLe]
  split
  · rename_i h; simp [h]
  · rename_i h
    split
    · rename_i h2; simp; omega
    · rename_i h2
      have he : a.toNat = b.toNat := by omega
      simp [he]

theorem pyStrLe_total : ∀ a b : PyStr, pyStrLe a b = true ∨ pyStrLe b a = true
  | [], _ => by left; rfl
  | _ :: _, [] => by right; rfl
  | a :: s, b :: t => by
    rcases Nat.lt_trichotomy a.toNat b.toNat with h | h | h
    · left; rw [pyStrLe_cons_iff]; exact Or.inl h
    · rcases pyStrLe_total s t with hs | hs
      · left; rw [pyStrLe_cons_iff]; exact Or.inr ⟨h, hs⟩
      · right; rw [pyStrLe_cons_iff]; exact Or.inr ⟨h.symm, hs⟩
    · right; rw [pyStrLe_cons_iff]; exact Or.inl h

theorem pyStrLe_trans : ∀ a b c : PyStr,
    pyStrLe a b = true → pyStrLe b c = true → pyStrLe a c = true
  | [], _, _ => by intro _ _; rfl
  | _ :: _, [], _ => by intro h _; simp [pyStrLe] at h
  | _ :: _, _ :: _, [] => by intro _ h; simp [pyStrLe] at h
  | a :: s, b :: t, c :: u => by
    intro h1 h2
    rw [pyStrLe_cons_iff] at h1 h2 ⊢
    rcases h1 with h1 | ⟨h1e, h1r⟩
    · rcases h2 with h2 | ⟨h2e, h2r⟩ <;> [left; left] <;> omega
    · rcases h2 with h2 | ⟨h2e, h2r⟩
      · left; omega
      · exact Or.inr ⟨by omega, pyStrLe_trans s t u h1r h2r⟩

theorem pyStrLe_antisymm : ∀ a b : PyStr,
    pyStrLe a b = true → pyStrLe b a = true → a = b
  | [], [] => by intro _ _; rfl
  | [], _ :: _ => by intro _ h; simp [pyStrLe] at h
  | _ :: _, [] => by intro h _; simp [pyStrLe] at h
  | a :: s, b :: t => by
    intro h1 h2
    rw [pyStrLe_cons_iff] at h1 h2
    rcases h1 with h1 | ⟨h1e, h1r⟩
    · rcases h2 with h2 | ⟨h2e, _⟩ <;> omega
    · rcases h2 with h2 | ⟨_, h2r⟩
      · omega
      · rw [char_toNat_inj h1e, pyStrLe_antisymm s t h1r h2r]

/-- `sorted` maps permutation-equal inputs to the same output. -/
theorem pySorted_eq_of_perm {l1 l2 : List PyStr} (h : l1.Perm l2) :
    pySorted l1 = pySorted l2 :=
  @List.eq_of_perm_of_sorted PyStr strLe ⟨pyStrLe_antisymm⟩ _ _
    ((List.perm_insertionSort strLe l1).trans
      (h.trans (List.perm_insertionSort strLe l2).symm))
    (@List.sorted_insertionSort PyStr strLe _ ⟨pyStrLe_total⟩ ⟨pyStrLe_trans⟩ l1)
    (@List.sorted_insertionSort PyStr strLe _ ⟨pyStrLe_total⟩ ⟨pyStrLe_trans⟩ l2)

/-! ## Injectivity of the joined, delimited token encoding -/

/-- Splitting at the first occurrence of a separator is unambiguous. -/
theorem append_cons_sep_inj (c : Char) :
    ∀ {a : PyStr} {b x y : PyStr}, c ∉ a → c ∉ b →
      a ++ c :: x = b ++ c :: y → a = b ∧ x = y
  | [], [], _, _, _, _, h => by simpa using h
  | [], b' :: bs, x, y, _, hb, h => by
    simp only [List.nil_append, List.cons_append, List.cons.injEq] at h
    exact absurd (h.1 ▸ List.mem_cons_self b' bs) (by simpa [h.1] using hb)
  | a' :: as, [], x, y, ha, _, h => by
    simp only [List.nil_append, List.cons_append, List.cons.injEq] at h
    exact absurd (List.mem_cons_self a' as) (by simpa [h.1] using ha)
  | a' :: as, b' :: bs, x, y, ha, hb, h => by
    simp only [List.cons_append, List.cons.injEq] at h
    have has : c ∉ as := fun hm => ha (List.mem_cons_of_mem _ hm)
    have hbs : c ∉ bs := fun hm => hb (List.mem_cons_of_mem _ hm)
    have := append_cons_sep_inj c has hbs h.2
    exact ⟨by rw [h.1, this.1], this.2⟩

/-- `c.join` is injective on lists of non-empty, separator-free pieces. -/
theorem joinSep_inj (c : Char) :
    ∀ (l1 l2 : List PyStr),
      (∀ t ∈ l1, t ≠ [] ∧ c ∉ t) → (∀ t ∈ l2, t ≠ [] ∧ c ∉ t) →
      joinSep c l1 = joinSep c l2 → l1 = l2
  | [], [], _, _, _ => rfl
  | [], [t], _, h2, heq => absurd heq.symm (h2 t (by simp)).1
  | [], t :: t2 :: ts, _, h2, heq => by
    simp only [joinSep] at heq
    exact absurd heq.symm (by simp [(h2 t (by simp)).1])
  | [t], [], h1, _, heq => absurd heq (h1 t (by simp)).1
  | t :: t2 :: ts, [], h1, _, heq => by
    simp only [joinSep] at heq
    exact absurd heq (by simp [(h1 t (by simp)).1])
  | [t], [u], _, _, heq => by simpa [joinSep] using heq
  | [t], u :: u2 :: us, h1, h2, heq => by
    simp only [joinSep] at heq
    have : c ∈ u ++ c :: joinSep c (u2 :: us) := by simp
    rw [← heq] at this
    exact absurd this (h1 t (by simp)).2
  | t :: t2 :: ts, [u], h1, h2, heq => by
    simp only [joinSep] at heq
    have : c ∈ t ++ c :: joinSep c (t2 :: ts) := by simp
    rw [heq] at this
    exact absurd this (h2 u (by simp)).2
  | t :: t2 :: ts, u :: u2 :: us, h1, h2, heq => by
    simp only [joinSep] at heq
    have h := append_cons_sep_inj c (h1 t (by simp)).2 (h2 u (by simp)).2 heq
    have ih := joinSep_inj c (t2 :: ts) (u2 :: us)
      (fun x hx => h1 x (List.mem_cons_of_mem _ hx))
      (fun x hx => h2 x (List.mem_cons_of_mem _ hx)) h.2
    rw [h.1, ih]

/-- A permutation of images under a map that is injective across the two
lists reflects to a permutation of the lists. -/
theorem perm_of_map_perm {α β : Type} (f : α → β) :
    ∀ (l1 l2 : List α), (∀ x ∈ l1, ∀ y ∈ l2, f x = f y → x = y) →
      (l1.map f).Perm (l2.map f) → l1.Perm l2
  | [], l2, _, hp => by
    have h0 : l2.map f = [] := hp.symm.eq_nil
    rw [List.map_eq_nil_iff.mp h0]
  | x :: l1, l2, hinj, hp => by
    have hx : f x ∈ l2.map f := hp.mem_iff.mp (by simp)
    obtain ⟨y, hy, hfy⟩ := List.mem_map.mp hx
    have hxy : y = x := (hinj x (by simp) y hy hfy.symm).symm
    subst hxy
    obtain ⟨s, t, rfl⟩ := List.append_of_mem hy
    have hmid : ((s ++ y :: t).map f).Perm (f y :: (s.map f ++ t.map f)) := by
      simpa using List.perm_middle
    have h1 : (f y :: l1.map f).Perm (f y :: (s.map f ++ t.map f)) := by
      simpa using hp.trans hmid
    have h2 : (l1.map f).Perm ((s ++ t).map f) := by
      simpa using h1.cons_inv
    have ih := perm_of_map_perm f l1 (s ++ t)
      (fun a ha b hb => hinj a (List.mem_cons_of_mem _ ha) b
        (by rcases List.mem_append.mp hb with h | h
            · exact List.mem_append.mpr (Or.inl h)
            · exact List.mem_append.mpr (Or.inr (List.mem_cons_of_mem _ h))))
      h2
    exact (ih.cons y).trans List.perm_middle.symm

/-! ## Facts about dimension tokens -/

theorem dimToken_ne_nil (td : Bool) (d : Dim) : dimToken td d ≠ [] := by
  simp [dimToken]

theorem bar_not_mem_dimToken {td : Bool} {d : Dim}
    (hq : '|' ∉ d.dimensionQname) (hm : '|' ∉ dimMemberRep td d) :
    '|' ∉ dimToken td d := by
  intro h
  rcases List.mem_append.mp h with h | h
  · exact hq h
  · rcases List.mem_cons.mp h with h | h
    · exact absurd h (by decide)
    · rcases List.mem_append.mp h with h | h
      · exact hm h
      · rcases List.mem_cons.mp h with h | h
        · exact absurd h (by decide)
        · simp at h

/-- A token determines its (dimension qname, member representation) pair, as
long as the dimension qname contains no `'('`. -/
theorem dimToken_pair_inj {q1 m1 q2 m2 : PyStr}
    (h1 : '(' ∉ q1) (h2 : '(' ∉ q2)
    (h : q1 ++ '(' :: (m1 ++ [')']) = q2 ++ '(' :: (m2 ++ [')'])) :
    q1 = q2 ∧ m1 = m2 := by
  have hs := append_cons_sep_inj '(' h1 h2 h
  exact ⟨hs.1, List.append_cancel_right hs.2⟩

/-- Dimension keys of permuted dimension maps coincide. -/
theorem dimKey_eq_of_perm (td : Bool) {c1 c2 : Cntx}
    (h : c1.qnameDims.Perm c2.qnameDims) : dimKey td c1 = dimKey td c2 :=
  congrArg (joinSep '|') (pySorted_eq_of_perm (h.map (dimToken td)))

/-- Equal dimension keys (typed rendering suppressed) force the same multiset
of (dimension qname, member representation) pairs. -/
theorem dimKey_unique {c1 c2 : Cntx} (w1 : DimsWF c1) (w2 : DimsWF c2)
    (h : dimKey false c1 = dimKey false c2) :
    (c1.qnameDims.map (fun d => (d.dimensionQname, dimMemberRep false d))).Perm
      (c2.qnameDims.map (fun d => (d.dimensionQname, dimMemberRep false d))) := by
  unfold dimKey at h
  have tw : ∀ (c : Cntx), DimsWF c →
      ∀ t ∈ pySorted (c.qnameDims.map (dimToken false)), t ≠ [] ∧ '|' ∉ t := by
    intro c wc t ht
    have htm : t ∈ c.qnameDims.map (dimToken false) :=
      (List.perm_insertionSort strLe _).mem_iff.mp ht
    obtain ⟨d, hd, rfl⟩ := List.mem_map.mp htm
    exact ⟨dimToken_ne_nil _ _,
      bar_not_mem_dimToken (wc d hd).2.1 (wc d hd).2.2⟩
  have hT : pySorted (c1.qnameDims.map (dimToken false))
      = pySorted (c2.qnameDims.map (dimToken false)) :=
    joinSep_inj '|' _ _ (tw c1 w1) (tw c2 w2) h
  have hperm : (c1.qnameDims.map (dimToken false)).Perm
      (c2.qnameDims.map (dimToken false)) := by
    have p1 := (List.perm_insertionSort strLe
      (c1.qnameDims.map (dimToken false))).symm
    have hT' : List.insertionSort strLe (c1.qnameDims.map (dimToken false))
        = List.insertionSort strLe (c2.qnameDims.map (dimToken false)) := hT
    rw [hT'] at p1
    exact p1.trans (List.perm_insertionSort strLe _)
  have hmap : ∀ (c : Cntx), c.qnameDims.map (dimToken false)
      = (c.qnameDims.map (fun d => (d.dimensionQname, dimMemberRep false d))).map
          (fun p => p.1 ++ '(' :: (p.2 ++ [')'])) := by
    intro c; rw [List.map_map]; rfl
  rw [hmap c1, hmap c2] at hperm
  refine perm_of_map_perm _ _ _ ?_ hperm
  intro x hx y hy hxy
  obtain ⟨dx, hdx, rfl⟩ := List.mem_map.mp hx
  obtain ⟨dy, hdy, rfl⟩ := List.mem_map.mp hy
  have := dimToken_pair_inj (w1 dx hdx).1 (w2 dy hdy).1 hxy
  simp only [Prod.mk.injEq]
  exact this

/-! ## Lookup facts about the context-id-keyed dimension-key dictionary -/

theorem lookup_cons_self {k v : PyStr} {l : List (PyStr × PyStr)} :
    List.lookup k ((k, v) :: l) = some v := by
  simp [List.lookup]

theorem lookup_cons_ne {k k' v : PyStr} {l : List (PyStr × PyStr)}
    (h : k ≠ k') : List.lookup k ((k', v) :: l) = List.lookup k l := by
  simp [List.lookup, beq_false_of_ne h]

theorem csdOf_cons (c0 : Cntx) (rest : List Cntx) :
    contextSortedDimsOf (c0 :: rest)
      = if c0.qnameDims.isEmpty then contextSortedDimsOf rest
        else (c0.id, dimKey false c0) :: contextSortedDimsOf rest := by
  by_cases hp : c0.qnameDims.isEmpty <;>
    simp [contextSortedDimsOf, List.filter_cons, hp]

theorem lookup_csdOf_eq_none {cs : List Cntx} {cid : PyStr}
    (h : ∀ c ∈ cs, c.id ≠ cid) :
    (contextSortedDimsOf cs).lookup cid = none := by
  induction cs with
  | nil => rfl
  | cons c0 rest ih =>
    have hne : c0.id ≠ cid := h c0 (by simp)
    have ih' := ih (fun c hc => h c (List.mem_cons_of_mem _ hc))
    rw [csdOf_cons]
    by_cases hp : c0.qnameDims.isEmpty
    · rw [if_pos hp]; exact ih'
    · rw [if_neg hp, lookup_cons_ne (fun he => hne he.symm)]; exact ih'

theorem lookup_csdOf_find {cs : List Cntx} {cid : PyStr} {c : Cntx}
    (hnd : (cs.map Cntx.id).Nodup)
    (hf : cs.find? (fun x => x.id == cid) = some c) :
    (contextSortedDimsOf cs).lookup cid
      = if c.qnameDims.isEmpty then none else some (dimKey false c) := by
  induction cs with
  | nil => simp at hf
  | cons c0 rest ih =>
    rw [List.map_cons, List.nodup_cons] at hnd
    rw [csdOf_cons]
    by_cases hc0 : c0.id = cid
    · rw [List.find?_cons_of_pos _ (by simpa using hc0)] at hf
      have hc : c = c0 := (Option.some.injEq _ _ ▸ hf).symm
      subst hc
      by_cases hp : c.qnameDims.isEmpty
      · rw [if_pos hp, if_pos hp]
        apply lookup_csdOf_eq_none
        intro x hx he
        have hmem : x.id ∈ rest.map Cntx.id := List.mem_map.mpr ⟨x, hx, rfl⟩
        rw [he, ← hc0] at hmem
        exact hnd.1 hmem
      · rw [if_neg hp, if_neg hp, hc0, lookup_cons_self]
    · rw [List.find?_cons_of_neg _ (by simpa using hc0)] at hf
      have ih' := ih hnd.2 hf
      by_cases hp : c0.qnameDims.isEmpty
      · rw [if_pos hp]; exact ih'
      · rw [if_neg hp, lookup_cons_ne (fun he => hc0 he.symm)]; exact ih'

/-- `metDimKey` of a fact whose resolved context has no dimensions (or whose
context id resolves to no context) is the bare metric key. -/
theorem metDimKey_no_dims {m : ModelXbrlDoc} {f : Fact} {c : Cntx}
    (hnd : (m.contexts.map Cntx.id).Nodup)
    (hc : factContext m f = some c) (hdims : c.qnameDims = []) :
    metDimKey m f = met f := by
  unfold factContext at hc
  cases hcid : f.contextID with
  | none => rw [hcid] at hc; simp at hc
  | some cid =>
    rw [hcid] at hc
    simp only [Option.some_bind] at hc
    unfold metDimKey contextSortedDims
    rw [hcid]
    simp only [Option.some_bind]
    rw [lookup_csdOf_find hnd hc, hdims]
    rfl

/-- `metDimKey` of a fact whose resolved context has dimensions appends the
context's dimension key. -/
theorem metDimKey_with_dims {m : ModelXbrlDoc} {f : Fact} {c : Cntx}
    (hnd : (m.contexts.map Cntx.id).Nodup)
    (hc : factContext m f = some c) (hdims : c.qnameDims ≠ []) :
    metDimKey m f = met f ++ '|' :: dimKey false c := by
  unfold factContext at hc
  cases hcid : f.contextID with
  | none => rw [hcid] at hc; simp at hc
  | some cid =>
    rw [hcid] at hc
    simp only [Option.some_bind] at hc
    unfold metDimKey contextSortedDims
    rw [hcid]
    simp only [Option.some_bind]
    rw [lookup_csdOf_find hnd hc,
      if_neg (fun he => hdims (List.isEmpty_iff.mp he))]

/-! ## Partition and split facts for key decoding -/

theorem pyPartition_of_not_mem {c : Char} : ∀ {s : PyStr}, c ∉ s →
    pyPartition c s = (s, false, [])
  | [], _ => rfl
  | a :: s, h => by
    have hne : a ≠ c := fun he => h (he ▸ List.mem_cons_self a s)
    have ih := pyPartition_of_not_mem (c := c) (s := s)
      (fun hm => h (List.mem_cons_of_mem _ hm))
    rw [pyPartition, if_neg hne, ih]

theorem pyPartition_append_cons {c : Char} : ∀ {a : PyStr} (b : PyStr), c ∉ a →
    pyPartition c (a ++ c :: b) = (a, true, b)
  | [], b, _ => by simp [pyPartition]
  | x :: a, b, h => by
    have hne : x ≠ c := fun he => h (he ▸ List.mem_cons_self x a)
    have ih := pyPartition_append_cons (c := c) (a := a) b
      (fun hm => h (List.mem_cons_of_mem _ hm))
    rw [List.cons_append, pyPartition, if_neg hne, ih]

/-! ## Classification and projection shape lemmas -/

/-- A successful classification yields one of four flag configurations:
numeric, boolean, datetime, or text (all flags clear). -/
theorem classify_flags {f : Fact} {fl : Flags} {xv : Option PyVal}
    (h : classifyFact f = .ok (fl, xv)) :
    fl = ⟨true, false, false⟩ ∨ fl = ⟨false, true, false⟩ ∨
      fl = ⟨false, false, true⟩ ∨ fl = ⟨false, false, false⟩ := by
  unfold classifyFact at h
  cases hc : f.concept with
  | some concept =>
    rw [hc] at h
    by_cases h1 : concept.isNumeric
    · simp [h1] at h; exact Or.inl h.1.symm
    · by_cases h2 : concept.baseXbrliType = "booleanItemType".data
      · simp [h1, h2] at h; exact Or.inr (Or.inl h.1.symm)
      · by_cases h3 : concept.baseXbrliType = "dateTimeItemType".data
        · simp [h1, h2, h3] at h; exact Or.inr (Or.inr (Or.inl h.1.symm))
        · simp [h1, h2, h3] at h; exact Or.inr (Or.inr (Or.inr h.1.symm))
  | none =>
    rw [hc] at h
    by_cases hn : f.isNil
    · simp [hn] at h; exact Or.inr (Or.inr (Or.inr h.1.symm))
    · simp only [hn, if_neg, Bool.false_eq_true, reduceIte] at h
      cases hh : f.qnameLocal.head? with
      | none => rw [hh] at h; cases h
      | some ch =>
        rw [hh] at h
        by_cases hm : ch = 'm'
        · simp [hm] at h; exact Or.inl h.1.symm
        · by_cases hd : ch = 'd'
          · simp [hm, hd] at h
          · by_cases hb : ch = 'b'
            · simp [hm, hd, hb] at h; exact Or.inr (Or.inl h.1.symm)
            · simp [hm, hd, hb] at h; exact Or.inr (Or.inr (Or.inr h.1.symm))

/-- The shape of a successful `processFact`: either the fact has no context
and contributes nothing, or it contributes one `Fact`-table row, one
processing row, and a close-table row exactly when the context has no typed
dimension. -/
theorem processFact_ok_cases {m : ModelXbrlDoc} {iid : Int} {f : Fact}
    {fl : Flags} {xv : Option PyVal}
    {t : List FactRow × List CloseTableFactRow × List ProcessingFactRow}
    (hcl : classifyFact f = .ok (fl, xv))
    (hpf : processFact m iid f = .ok t) :
    (factContext m f = none ∧ t = ([], [], [])) ∨
    (∃ c, factContext m f = some c ∧
      t = ([{ decimals := f.decimals, variableId := none,
              dataPointKey := metDimKey m f, instanceId := iid,
              entityId := c.entityIdentifier,
              datePeriodEnd := c.endDateOrdinal - 1, unit := f.unitID,
              numericValue := if fl.isNumeric then xv else none,
              dateTimeValue := if fl.isDateTime then xv else none,
              boolValue := if fl.isBool then xv else none,
              textValue := if fl.isText then xv else none }],
           (if c.qnameDims.any Dim.isTyped then []
            else
              [{ instanceId := iid, metricDimMem := metDimKey m f,
                 unit := f.unitID, decimals := f.decimals,
                 numericValue := if fl.isNumeric then xv else none,
                 dateTimeValue := if fl.isDateTime then xv else none,
                 boolValue := if fl.isBool then xv else none,
                 textValue := if fl.isText then xv else none,
                 instanceIdMetricDimMemHash := none }]),
           [{ instanceId := iid, metric := met f, contextId := c.id,
              valueTxt := f.value, valueDecimal := f.decimals,
              valueDate := c.endDateOrdinal - 1, error := none }])) := by
  unfold processFact at hpf
  rw [hcl] at hpf
  simp only [bind, Except.bind, pure, Except.pure] at hpf
  cases hctx : factContext m f with
  | none =>
    rw [hctx] at hpf
    simp only [Except.ok.injEq] at hpf
    exact Or.inl ⟨rfl, hpf.symm⟩
  | some c =>
    rw [hctx] at hpf
    simp only [Except.ok.injEq] at hpf
    exact Or.inr ⟨c, rfl, hpf.symm⟩

/-- Counting non-null entries among the four value columns built from one of
the four flag configurations: one iff the classified value is non-null. -/
theorem count_cols (fl : Flags) (xv : Option PyVal)
    (hfl : fl = ⟨true, false, false⟩ ∨ fl = ⟨false, true, false⟩ ∨
      fl = ⟨false, false, true⟩ ∨ fl = ⟨false, false, false⟩) :
    countSome [if fl.isNumeric then xv else none,
               if fl.isDateTime then xv else none,
               if fl.isBool then xv else none,
               if fl.isText then xv else none]
      = if xv.isSome then 1 else 0 := by
  rcases hfl with rfl | rfl | rfl | rfl <;> cases xv <;>
    simp [countSome, Flags.isText]

/-! ## Claim C3 -/

/-- C3: for every context, `dimKey` is invariant under permutation of the
dimension map (the `"dim(member)"` tokens are sorted lexicographically and
joined with `'|'`), and — for wellformed dimension maps, with typed rendering
suppressed so typed members render as `'*'` — equal keys determine the same
multiset of (dimension qname, member representation) pairs, so the key
uniquely determines the dimension set. -/
theorem c3_dimKey_order_invariant_and_unique (td : Bool) (c1 c2 : Cntx) :
    (c1.qnameDims.Perm c2.qnameDims → dimKey td c1 = dimKey td c2) ∧
    (DimsWF c1 → DimsWF c2 → dimKey false c1 = dimKey false c2 →
      (c1.qnameDims.map (fun d => (d.dimensionQname, dimMemberRep false d))).Perm
        (c2.qnameDims.map (fun d => (d.dimensionQname, dimMemberRep false d)))) :=
  ⟨dimKey_eq_of_perm td, fun w1 w2 h => dimKey_unique w1 w2 h⟩

/-- Witness for C3 at the two-dimension contexts `exCntxAB` / `exCntxBA`. -/
theorem c3_dimKey_order_invariant_and_unique_witness :
    (dimKey true exCntxAB = dimKey true exCntxBA) ∧
    ((exCntxAB.qnameDims.map
        (fun d => (d.dimensionQname, dimMemberRep false d))).Perm
      (exCntxBA.qnameDims.map
        (fun d => (d.dimensionQname, dimMemberRep false d)))) :=
  ⟨(c3_dimKey_order_invariant_and_unique true exCntxAB exCntxBA).1 (by decide),
   (c3_dimKey_order_invariant_and_unique true exCntxAB exCntxBA).2
     (by decide) (by decide) (by decide)⟩

/-! ## Claim C4 -/

/-- C4: the DataPointKey of a fact is `"MET(<metric>)"` alone when the fact's
context has no dimensions, and `"MET(<metric>)|<dimensionKey>"` otherwise;
the worked example `eba:mi123` with explicit dimension `eba:CF(eba:x5)`
encodes to `"MET(eba:mi123)|eba:CF(eba:x5)"`, and decoding that key recovers
the metric qname text and the single dimension/member pair. -/
theorem c4_metDimKey_encode_decode :
    (∀ (m : ModelXbrlDoc) (f : Fact) (c : Cntx),
      (m.contexts.map Cntx.id).Nodup → factContext m f = some c →
      c.qnameDims = [] → metDimKey m f = met f) ∧
    (∀ (m : ModelXbrlDoc) (f : Fact) (c : Cntx),
      (m.contexts.map Cntx.id).Nodup → factContext m f = some c →
      c.qnameDims ≠ [] → metDimKey m f = met f ++ '|' :: dimKey false c) ∧
    metDimKey exModel exMetricFact = "MET(eba:mi123)|eba:CF(eba:x5)".data ∧
    decodeDataPointKey "MET(eba:mi123)|eba:CF(eba:x5)".data
      = ("eba:mi123".data, "eba:CF(eba:x5)".data) ∧
    decodeDimTokens "eba:CF(eba:x5)".data = [("eba:CF".data, "eba:x5".data)] :=
  ⟨fun _ _ _ hnd hc hd => metDimKey_no_dims hnd hc hd,
   fun _ _ _ hnd hc hd => metDimKey_with_dims hnd hc hd,
   by decide, by decide, by decide⟩

/-- Witness for C4's two implications, at a dimensionless-context fact and at
the worked example fact. -/
theorem c4_metDimKey_encode_decode_witness :
    metDimKey exModel exNoDimsFact = met exNoDimsFact ∧
    metDimKey exModel exMetricFact = met exMetricFact ++ '|' :: dimKey false exCntx :=
  ⟨c4_metDimKey_encode_decode.1 exModel exNoDimsFact exCntxNoDims
      (by decide) (by decide) (by decide),
   c4_metDimKey_encode_decode.2.1 exModel exMetricFact exCntx
      (by decide) (by decide) (by decide)⟩

/-! ## Claim C9 -/

/-- C9 (amended): decoding a stored DataPointKey splits it on the first `'|'`
into a metric token and a dimension token and takes as metric qname the text
after the first `'('` with the final character dropped; decoding is total —
when the `MET(...)` wrapper delimiters are absent the metric decodes to the
empty string and no error (in particular no `MalformedKey` error, which does
not exist in the module) is raised. -/
theorem c9_decode_shape_total :
    (∀ (q dims : PyStr), '|' ∉ q →
      decodeDataPointKeyE (("MET(".data ++ q ++ [')']) ++ '|' :: dims)
        = .ok (q, dims)) ∧
    (∀ (q : PyStr), '|' ∉ q →
      decodeDataPointKeyE ("MET(".data ++ q ++ [')']) = .ok (q, [])) ∧
    (∀ (key : PyStr), '(' ∉ key → '|' ∉ key →
      decodeDataPointKeyE key = .ok ([], [])) := by
  have hbar : ∀ (q : PyStr), '|' ∉ q → '|' ∉ ("MET(".data ++ q ++ [')']) := by
    intro q hq h
    rcases List.mem_append.mp h with h | h
    · rcases List.mem_append.mp h with h | h
      · exact absurd h (by decide)
      · exact hq h
    · exact absurd h (by decide)
  have hmet : ∀ (q : PyStr),
      pyPartition '(' ("MET(".data ++ q ++ [')']) = ("MET".data, true, q ++ [')']) := by
    intro q
    exact pyPartition_append_cons (c := '(') (a := "MET".data) (q ++ [')'])
      (by decide)
  refine ⟨?_, ?_, ?_⟩
  · intro q dims hq
    unfold decodeDataPointKeyE decodeDataPointKey
    rw [pyPartition_append_cons _ (hbar q hq)]
    simp only [hmet q]
    rw [List.dropLast_concat]
  · intro q hq
    unfold decodeDataPointKeyE decodeDataPointKey
    rw [pyPartition_of_not_mem (hbar q hq)]
    simp only [hmet q]
    rw [List.dropLast_concat]
  · intro key hp hb
    unfold decodeDataPointKeyE decodeDataPointKey
    rw [pyPartition_of_not_mem hb]
    simp only [pyPartition_of_not_mem hp]
    rfl

/-- Witness for C9 at the worked example key and a wrapperless key. -/
theorem c9_decode_shape_total_witness :
    decodeDataPointKeyE
        (("MET(".data ++ "eba:mi123".data ++ [')']) ++ '|' :: "eba:CF(eba:x5)".data)
      = .ok ("eba:mi123".data, "eba:CF(eba:x5)".data) ∧
    decodeDataPointKeyE ("MET(".data ++ "eba:mi123".data ++ [')'])
      = .ok ("eba:mi123".data, []) ∧
    decodeDataPointKeyE "METeba:mi123".data = .ok ([], []) :=
  ⟨c9_decode_shape_total.1 "eba:mi123".data "eba:CF(eba:x5)".data (by decide),
   c9_decode_shape_total.2.1 "eba:mi123".data (by decide),
   c9_decode_shape_total.2.2 "METeba:mi123".data (by decide) (by decide)⟩

/-- C9 counterexample to the claim as stated: a key without the `MET(...)`
wrapper delimiters decodes without any failure — the decode step returns a
normal result (the empty metric text), not an error. -/
theorem c9_no_malformed_key_failure :
    decodeDataPointKeyE "METeba:mi123".data = .ok ([], [])
      ∧ (decodeDataPointKeyE "METeba:mi123".data).isOk = true := by
  constructor <;> decide

/-! ## Claim C2 -/

/-- C2 (amended): every row written to the `Fact` table and to the
`dCloseTableFact` table has at most one non-null value column among
{NumericValue, DateTimeValue, BoolValue, TextValue} — exactly one when the
classified value is non-null, and all four null when it is null (as for nil
facts). -/
theorem c2_value_columns_mutually_exclusive (m : ModelXbrlDoc) (iid : Int)
    (f : Fact) (fl : Flags) (xv : Option PyVal)
    (t : List FactRow × List CloseTableFactRow × List ProcessingFactRow)
    (hcl : classifyFact f = .ok (fl, xv))
    (hpf : processFact m iid f = .ok t) :
    (∀ r ∈ t.1, countSome r.valueCols = if xv.isSome then 1 else 0) ∧
    (∀ r ∈ t.2.1, countSome r.valueCols = if xv.isSome then 1 else 0) := by
  have hfl := classify_flags hcl
  rcases processFact_ok_cases hcl hpf with ⟨-, rfl⟩ | ⟨c, -, rfl⟩
  · exact ⟨fun r hr => absurd hr (List.not_mem_nil r),
           fun r hr => absurd hr (List.not_mem_nil r)⟩
  · constructor
    · intro r hr
      rw [List.mem_singleton.mp hr]
      exact count_cols fl xv hfl
    · intro r hr
      by_cases hty : c.qnameDims.any Dim.isTyped
      · rw [if_pos hty] at hr
        exact absurd hr (List.not_mem_nil r)
      · rw [if_neg hty] at hr
        rw [List.mem_singleton.mp hr]
        exact count_cols fl xv hfl

/-- Witness for C2 at the worked example numeric fact: its `Fact`-table row
has exactly one non-null value column. -/
theorem c2_value_columns_witness :
    countSome (FactRow.valueCols
      { decimals := none, variableId := none,
        dataPointKey := "MET(eba:mi123)|eba:CF(eba:x5)".data, instanceId := 1,
        entityId := "LEI123".data, datePeriodEnd := 99, unit := none,
        numericValue := some (.decV 5 0), dateTimeValue := none,
        boolValue := none, textValue := none }) = 1 := by
  have h := c2_value_columns_mutually_exclusive exModel 1 exMetricFact
    ⟨true, false, false⟩ (some (.decV 5 0))
    ([{ decimals := none, variableId := none,
        dataPointKey := "MET(eba:mi123)|eba:CF(eba:x5)".data, instanceId := 1,
        entityId := "LEI123".data, datePeriodEnd := 99, unit := none,
        numericValue := some (.decV 5 0), dateTimeValue := none,
        boolValue := none, textValue := none }],
     [{ instanceId := 1, metricDimMem := "MET(eba:mi123)|eba:CF(eba:x5)".data,
        unit := none, decimals := none, numericValue := some (.decV 5 0),
        dateTimeValue := none, boolValue := none, textValue := none,
        instanceIdMetricDimMemHash := none }],
     [{ instanceId := 1, metric := "MET(eba:mi123)".data,
        contextId := "c1".data, valueTxt := "5".data, valueDecimal := none,
        valueDate := 99, error := none }])
    (by decide) (by decide)
  simpa using h.1 _ (by simp)

/-- C2 counterexample to the claim as stated: the nil fact `exNilFact`
produces a `Fact`-table row and a `dCloseTableFact` row in which all four
value columns are null — not exactly one non-null. -/
theorem c2_nil_fact_all_columns_null :
    (processFact exModel 1 exNilFact).toOption.map
        (fun t => (t.1.map FactRow.valueCols, t.2.1.map CloseTableFactRow.valueCols))
      = some ([[none, none, none, none]], [[none, none, none, none]]) := by
  decide

/-! ## Claim C5 -/

/-- C5 (amended): for an unresolved concept whose local name starts with
`'b'`, the whitespace-trimmed literals "true"/"1" convert to boolean true and
"false"/"0" to boolean false; any other token — including the mixed-case
"TRUE" and "yes" — is not converted: it stays the trimmed string, is typed as
boolean, and is routed to the BoolValue column (not the text column); at
reconstruction a stored boolean-column string renders as "true" exactly when
it lowercases to one of t/true/1, so the stored "TRUE" renders as true. -/
theorem c5_bool_token_classification :
    classifyFact (exBoolFact " true ".data)
        = .ok (⟨false, true, false⟩, some (.boolV true)) ∧
    classifyFact (exBoolFact "1".data)
        = .ok (⟨false, true, false⟩, some (.boolV true)) ∧
    classifyFact (exBoolFact "false".data)
        = .ok (⟨false, true, false⟩, some (.boolV false)) ∧
    classifyFact (exBoolFact "0".data)
        = .ok (⟨false, true, false⟩, some (.boolV false)) ∧
    classifyFact (exBoolFact "TRUE".data)
        = .ok (⟨false, true, false⟩, some (.strV "TRUE".data)) ∧
    renderBool "TRUE".data = "true".data ∧
    classifyFact (exBoolFact "yes".data)
        = .ok (⟨false, true, false⟩, some (.strV "yes".data)) ∧
    (processFact exModel 1 (exBoolFact "yes".data)).toOption.map
        (fun t => t.1.map (fun r => (r.boolValue, r.textValue)))
      = some [(some (.strV "yes".data), none)] := by
  refine ⟨?_, ?_, ?_, ?_, ?_, ?_, ?_, ?_⟩ <;> decide

/-- C5 counterexample to the claim as stated: the unrecognized token "yes" is
not routed to the text column — the `Fact`-table row stores it (as a string)
in the BoolValue column while TextValue is null. -/
theorem c5_yes_not_in_text_column :
    (processFact exModel 1 (exBoolFact "yes".data)).toOption.map
        (fun t => t.1.map (fun r => (r.textValue, r.boolValue)))
      = some [(none, some (.strV "yes".data))] := by
  decide

/-! ## Claim C6 -/

/-- C6: a fact whose context contains a typed dimension emits no
`dCloseTableFact` row — only one `Fact`-table row and one processing row;
a fact whose context has only explicit dimensions additionally emits one
close-table row keyed by instance id and the DataPointKey, carrying the same
four value columns and a null hash placeholder. -/
theorem c6_closed_table_only_without_typed_dims (m : ModelXbrlDoc) (iid : Int)
    (f : Fact) (c : Cntx) (fl : Flags) (xv : Option PyVal)
    (t : List FactRow × List CloseTableFactRow × List ProcessingFactRow)
    (hcl : classifyFact f = .ok (fl, xv))
    (hctx : factContext m f = some c)
    (hpf : processFact m iid f = .ok t) :
    (c.qnameDims.any Dim.isTyped = true →
      t.2.1 = [] ∧ t.1.length = 1 ∧ t.2.2.length = 1) ∧
    (c.qnameDims.any Dim.isTyped = false →
      ∃ fr, t.1 = [fr] ∧ t.2.2.length = 1 ∧
        t.2.1 = [{ instanceId := iid, metricDimMem := metDimKey m f,
                   unit := f.unitID, decimals := f.decimals,
                   numericValue := fr.numericValue,
                   dateTimeValue := fr.dateTimeValue,
                   boolValue := fr.boolValue, textValue := fr.textValue,
                   instanceIdMetricDimMemHash := none }]) := by
  rcases processFact_ok_cases hcl hpf with ⟨hn, -⟩ | ⟨c', hc', rfl⟩
  · rw [hctx] at hn; cases hn
  · have hcc : c' = c := by
      rw [hc'] at hctx
      injection hctx
    subst hcc
    constructor
    · intro hty
      refine ⟨?_, rfl, rfl⟩
      simp only [hty, if_pos]
    · intro hty
      refine ⟨_, rfl, rfl, ?_⟩
      simp only [hty, Bool.false_eq_true, if_neg, reduceIte]

/-- Witness for C6: the typed-dimension-context fact emits no close-table
row; the explicit-dimension fact emits exactly the matching close-table
row. -/
theorem c6_closed_table_witness :
    (processFact exModel 1 exTypedCtxFact).toOption.map (fun t => t.2.1)
        = some [] ∧
    (processFact exModel 1 exMetricFact).toOption.map (fun t => t.2.1)
        = some [{ instanceId := 1,
                  metricDimMem := "MET(eba:mi123)|eba:CF(eba:x5)".data,
                  unit := none, decimals := none,
                  numericValue := some (.decV 5 0), dateTimeValue := none,
                  boolValue := none, textValue := none,
                  instanceIdMetricDimMemHash := none }] := by
  have hpfT : processFact exModel 1 exTypedCtxFact
      = .ok ([{ decimals := none, variableId := none,
                dataPointKey := "MET(eba:mi9)|eba:TD(*)".data, instanceId := 1,
                entityId := "LEI123".data, datePeriodEnd := 99, unit := none,
                numericValue := some (.decV 7 0), dateTimeValue := none,
                boolValue := none, textValue := none }],
              [],
              [{ instanceId := 1, metric := "MET(eba:mi9)".data,
                 contextId := "c2".data, valueTxt := "7".data,
                 valueDecimal := none, valueDate := 99, error := none }]) := by
    decide
  have hpfE : processFact exModel 1 exMetricFact
      = .ok ([{ decimals := none, variableId := none,
                dataPointKey := "MET(eba:mi123)|eba:CF(eba:x5)".data,
                instanceId := 1, entityId := "LEI123".data,
                datePeriodEnd := 99, unit := none,
                numericValue := some (.decV 5 0), dateTimeValue := none,
                boolValue := none, textValue := none }],
              [{ instanceId := 1,
                 metricDimMem := "MET(eba:mi123)|eba:CF(eba:x5)".data,
                 unit := none, decimals := none,
                 numericValue := some (.decV 5 0), dateTimeValue := none,
                 boolValue := none, textValue := none,
                 instanceIdMetricDimMemHash := none }],
              [{ instanceId := 1, metric := "MET(eba:mi123)".data,
                 contextId := "c1".data, valueTxt := "5".data,
                 valueDecimal := none, valueDate := 99, error := none }]) := by
    decide
  have hT := c6_closed_table_only_without_typed_dims exModel 1 exTypedCtxFact
    exCntxTyped ⟨true, false, false⟩ (some (.decV 7 0)) _
    (by decide) (by decide) hpfT
  have hE := c6_closed_table_only_without_typed_dims exModel 1 exMetricFact
    exCntx ⟨true, false, false⟩ (some (.decV 5 0)) _
    (by decide) (by decide) hpfE
  constructor
  · have h1 := (hT.1 (by decide)).1
    rw [hpfT]
    simpa [Except.toOption] using h1
  · obtain ⟨fr, hfr, -, hclose⟩ := hE.2 (by decide)
    have hfr2 : fr = ⟨none, none, "MET(eba:mi123)|eba:CF(eba:x5)".data, 1,
        "LEI123".data, 99, none, some (.decV 5 0), none, none, none⟩ := by
      simpa using hfr.symm
    subst hfr2
    have hmdk : metDimKey exModel exMetricFact
        = "MET(eba:mi123)|eba:CF(eba:x5)".data := by decide
    rw [hmdk] at hclose
    rw [hpfE]
    simpa [Except.toOption] using hclose

/-! ## Claim C1 -/

/-- C1: inserting the same file name twice (same uri, same module) reuses the
same instance id and leaves exactly the second insertion's rows in the
`dCloseTableFact`, `dProcessingContext` and `dProcessingFact` tables — but
the `Fact` (typed-value) table is not purged by the delete statements of
lines 175–186, so it retains the first insertion's row alongside the
second's: residue, contradicting the claim for the typed-value table. -/
theorem c1_fact_table_residue_after_reinsert :
    ((insertOp (insertOp DBState.empty exModelA).1 exModelB).1.dCloseTableFact.map
        (fun r => (r.instanceId, r.textValue))
      = [(1, some (.strV "B".data))]) ∧
    ((insertOp (insertOp DBState.empty exModelA).1 exModelB).1.dProcessingFact.map
        (fun r => (r.instanceId, r.valueTxt))
      = [(1, "B".data)]) ∧
    ((insertOp (insertOp DBState.empty exModelA).1 exModelB).1.dProcessingContext.map
        (fun r => r.instanceId) = [1]) ∧
    ((insertOp (insertOp DBState.empty exModelA).1 exModelB).1.factTable.map
        (fun r => (r.instanceId, r.textValue))
      = [(1, some (.strV "A".data)), (1, some (.strV "B".data))]) := by
  refine ⟨?_, ?_, ?_, ?_⟩ <;> decide

/-! ## Claim C7 -/

/-- C7: rendering a stored numeric value uses the stored decimals —
decimals 2 on "3.14159" renders "3.14"; a null or "INF" decimals infers the
displayed places from the literal's fractional digit count (all 5 digits of
"3.14159" preserved); an out-of-range decimals value is clamped to
[-28, 28] before use (decimals 30 displays 28 places). -/
theorem c7_decimals_rounding :
    renderNumeric "3.14159".data (some (.intD 2)) = some "3.14".data ∧
    renderNumeric "3.14159".data (some .INF) = some "3.14159".data ∧
    renderNumeric "3.14159".data none = some "3.14159".data ∧
    renderNumeric "1.5".data (some (.intD 30))
      = some "1.5000000000000000000000000000".data ∧
    clampDec 30 = 28 ∧ clampDec (-40) = -28 ∧
    fracCount "3.14159".data = 5 := by
  refine ⟨?_, ?_, ?_, ?_, ?_, ?_, ?_⟩ <;> decide

/-! ## Claim C8 -/

/-- C8: contrary to the claim, a fact with an unresolved concept whose local
name starts with 'd' makes the whole insertion abort: the conversion branch
evaluates `dateTime(xValue, type=DATEUNION, castException=ValueError)` whose
argument `DATEUNION` is an unbound module name (it is never imported), so a
`NameError` — not a `ValueError` — is raised and propagates out of the
`except ValueError` handler; the batch rolls back. -/
theorem c8_dateunion_branch_raises :
    classifyFact exDateFact = .error .nameError ∧
    insertXbrl DBState.empty exModelD = .error .nameError ∧
    insertOp DBState.empty exModelD = (DBState.empty, some .nameError) := by
  refine ⟨?_, ?_, ?_⟩ <;> decide

/-! ## Claim C10 -/

/-- C10: when `blockDpmDBrecursion` is set, `insertIntoDB` returns `None`
immediately, performing no connection effect at all; and `loadXbrlFromDB`
sets that flag before invoking `createModelDocument`, so an `insertIntoDB`
re-entered from document creation during a load always returns `None` with
no database effects. -/
theorem c10_block_recursion (m : ModelXbrl) (load : Option PyStr) :
    (m.blockDpmDBrecursion = true → insertIntoDB m load = (none, [])) ∧
    (∀ (db : DBState) (fileName : PyStr)
        (r : (Option PyStr × List DBEffect) × ModelXbrl),
      loadXbrlFromDB db m fileName (fun mx => insertIntoDB mx load) = .ok r →
      r.1 = (none, [])) := by
  constructor
  · intro hb
    unfold insertIntoDB
    rw [hb]
    simp
  · intro db fileName r hr
    simp only [loadXbrlFromDB] at hr
    split at hr
    · cases hr
    · simp only [Except.ok.injEq] at hr
      rw [← hr]
      simp [insertIntoDB]

/-- Witness for C10: a blocked model yields `(None, no effects)`, and a load
against a populated database hands `createModelDocument` a model whose
re-entrant insertion yields `(None, no effects)`. -/
theorem c10_block_recursion_witness :
    insertIntoDB { blockDpmDBrecursion := true } none = (none, []) ∧
    loadXbrlFromDB exDBLoaded { blockDpmDBrecursion := false } "rep.xbrl".data
        (fun mx => insertIntoDB mx none)
      = .ok ((none, []), { blockDpmDBrecursion := true }) := by
  constructor
  · exact (c10_block_recursion ⟨true⟩ none).1 rfl
  · have h1 := (c10_block_recursion ⟨true⟩ none).1 rfl
    have hrun : loadXbrlFromDB exDBLoaded { blockDpmDBrecursion := false }
        "rep.xbrl".data (fun mx => insertIntoDB mx none)
        = .ok (insertIntoDB ⟨true⟩ none, ⟨true⟩) := by decide
    rw [hrun, h1]

end DpmDB
